import Mathlib

set_option maxHeartbeats 1000000
set_option linter.unusedVariables false

/-! Shallow embedding of the bedrock_rag_pdf_chat admin pipeline
(src/admin/admin.py): chunking, embedding-model selection, vector-store
creation and publication to object storage. -/

/-- A page of extracted text, as produced by the PDF loader. -/
structure Page where
  text : List Char
  page_index : Nat
  deriving DecidableEq, Repr

/-- A text fragment produced by the chunker, attributed to its source page. -/
structure Fragment where
  text : List Char
  source_page : Nat
  deriving DecidableEq, Repr

inductive ChunkError
  | InvalidChunkConfig
  deriving DecidableEq, Repr

/-- Modelled from the spec: the separator levels of the recursive splitter
(paragraph break, then sentence end, then whitespace); the repository's
`split_text` delegates the splitting itself to an external text-splitting
library whose code is not part of the source tree. -/
def sepLevels : List (Char → Bool) :=
  [fun c => c == '\n', fun c => c == '.', fun c => c == ' ']

/-- Split a text at separator characters, keeping each separator attached to
the end of the piece it terminates. -/
def splitOnSep (p : Char → Bool) : List Char → List (List Char)
  | [] => []
  | c :: rest =>
    if p c then
      [c] :: splitOnSep p rest
    else
      match splitOnSep p rest with
      | [] => [[c]]
      | piece :: more => (c :: piece) :: more

/-- Hard split, driven by a step budget: each step emits one block of at most
`max cs 1` characters and drops it from the front.  The budget is only there
to make the recursion structural; `chunksOf` passes the text's length, which
always suffices since every step consumes at least one character. -/
def chunksOfF (cs : Nat) : Nat → List Char → List (List Char)
  | _, [] => []
  | 0, _ :: _ => []
  | fuel + 1, c :: rest =>
    ((c :: rest).take (max cs 1)) :: chunksOfF cs fuel ((c :: rest).drop (max cs 1))

/-- Hard split of a text into consecutive blocks at the size boundary. -/
def chunksOf (cs : Nat) (l : List Char) : List (List Char) :=
  chunksOfF cs l.length l

/-- Modelled from the spec: recursive separator-aware splitting.  Break the
text at the largest available separator so that pieces do not exceed
`cs` characters; recurse with the next separator level on oversized pieces;
hard split at the size boundary once the separators are exhausted. -/
def splitRec (cs : Nat) : List (Char → Bool) → List Char → List (List Char)
  | [], text =>
    if text.isEmpty then []
    else if text.length ≤ cs then [text]
    else chunksOf cs text
  | p :: rest, text =>
    if text.isEmpty then []
    else if text.length ≤ cs then [text]
    else
      (splitOnSep p text).flatMap
        (fun piece => if piece.length ≤ cs then [piece] else splitRec cs rest piece)

/-- The trailing `n` characters of a text. -/
def takeRight (n : Nat) (l : List Char) : List Char := l.drop (l.length - n)

/-- Modelled from the spec: fold the ordered pieces into overlapping windows
of at most `cs` characters; a new window begins with the trailing `ov`
characters of the previous one whenever the sizes permit it. -/
def mergeAux (cs ov : Nat) : List Char → List (List Char) → List (List Char)
  | cur, [] => if cur.isEmpty then [] else [cur]
  | cur, piece :: rest =>
    if cur.length + piece.length ≤ cs then
      mergeAux cs ov (cur ++ piece) rest
    else
      let carry := takeRight ov cur
      let next := if carry.length + piece.length ≤ cs then carry ++ piece else piece
      (if cur.isEmpty then [] else [cur]) ++ mergeAux cs ov next rest

def mergeSplits (cs ov : Nat) (pieces : List (List Char)) : List (List Char) :=
  mergeAux cs ov [] pieces

/-- Chunk one page's text: recursive separator-aware splitting followed by
construction of the overlapping windows. -/
def splitPage (cs ov : Nat) (text : List Char) : List (List Char) :=
  mergeSplits cs ov (splitRec cs sepLevels text)

/-- Modelled from the spec: `split_text` (src/admin/admin.py lines 54-62)
delegates chunking to an external recursive character splitter that is not in
the source tree; per the spec it fails with `InvalidChunkConfig` when
`overlap_size ≥ chunk_size` or `chunk_size ≤ 0`, and otherwise splits each
page into fragments of at most `chunk_size` characters with overlap-sized
shared boundaries, preserving page attribution. -/
def split_text (pages : List Page) (chunk_size overlap_size : Int) :
    Except ChunkError (List Fragment) :=
  if overlap_size ≥ chunk_size ∨ chunk_size ≤ 0 then
    .error .InvalidChunkConfig
  else
    .ok (pages.flatMap (fun pg =>
      (splitPage chunk_size.toNat overlap_size.toNat pg.text).map
        (fun t => ⟨t, pg.page_index⟩)))

inductive EmbedModel
  | titan
  | cohere
  deriving DecidableEq, Repr

/-- Availability of the two Bedrock embedding models at process start. -/
structure BedrockEnv where
  titanOk : Bool
  cohereOk : Bool
  deriving DecidableEq, Repr

/-- Embedding-model selection (src/admin/admin.py lines 29-44): try the Titan
model first, fall back to the Cohere model, and yield `none` (with an error
shown) when both constructor attempts fail. -/
def bedrock_embeddings (env : BedrockEnv) : Option EmbedModel :=
  if env.titanOk then some .titan
  else if env.cohereOk then some .cohere
  else none

inductive PayloadKind
  | faiss
  | pkl
  deriving DecidableEq, Repr

/-- A blob stored in the object store, tagged with the request that produced
it and which of the two payloads it is. -/
structure Payload where
  request : String
  kind : PayloadKind
  deriving DecidableEq, Repr

/-- The object store as a put-log: the most recent put for a key wins. -/
abbrev S3State := List (String × Payload)

def s3put (key : String) (v : Payload) (s : S3State) : S3State := (key, v) :: s

def s3get (key : String) (s : S3State) : Option Payload := s.lookup key

/-- Observable file-system and object-store effects of a pipeline run. -/
inductive Eff
  | localWrite (path : String)
  | s3upload (key : String)
  | fsDelete (path : String)
  deriving DecidableEq, Repr

def faissKey : String := "my_faiss.faiss"

def pklKey : String := "my_faiss.pkl"

def folder_path : String := "/tmp/"

def file_name (request_id : String) : String := request_id ++ ".bin"

/-- Path of a staged index file: `save_local` writes the serialized index and
its sidecar under `/tmp/` with a file name keyed by the request id. -/
def stagingPath (request_id ext : String) : String :=
  folder_path ++ file_name request_id ++ ext

/-- Outcomes of the external calls made by `create_vector_store`: the FAISS
index build and the two S3 uploads. -/
structure StoreEnv where
  buildOk : Bool
  upload1Ok : Bool
  upload2Ok : Bool
  deriving DecidableEq, Repr

structure CVSResult where
  result : Bool
  s3 : S3State
  trace : List Eff
  deriving DecidableEq, Repr

/-- `create_vector_store` (src/admin/admin.py lines 65-96): returns `False`
when no embedding model is available; otherwise builds the FAISS index, saves
it locally under `/tmp/` keyed by the request id, uploads the `.faiss` payload
to the fixed key `my_faiss.faiss` and then the `.pkl` payload to the fixed key
`my_faiss.pkl`, returning `True`; any exception along the way is caught and
turned into `False`. -/
def create_vector_store (emb : Option EmbedModel) (env : StoreEnv)
    (request_id : String) (documents : List Fragment) (s3 : S3State) : CVSResult :=
  match emb with
  | none => ⟨false, s3, []⟩
  | some _ =>
    if env.buildOk = false then ⟨false, s3, []⟩
    else
      let t0 : List Eff := [.localWrite (stagingPath request_id ".faiss"),
                            .localWrite (stagingPath request_id ".pkl")]
      if env.upload1Ok = false then ⟨false, s3, t0⟩
      else
        let s3f := s3put faissKey ⟨request_id, .faiss⟩ s3
        if env.upload2Ok = false then ⟨false, s3f, t0 ++ [.s3upload faissKey]⟩
        else
          ⟨true, s3put pklKey ⟨request_id, .pkl⟩ s3f,
           t0 ++ [.s3upload faissKey, .s3upload pklKey]⟩

/-- The request's artifact counts as fully published only when both payloads
at the two fixed publication keys are that request's. -/
def fullyPublished (request_id : String) (s : S3State) : Bool :=
  s3get faissKey s == some ⟨request_id, .faiss⟩ &&
  s3get pklKey s == some ⟨request_id, .pkl⟩

/-- The object-store keys written during a run, in upload order. -/
def uploadedKeys (trace : List Eff) : List String :=
  trace.filterMap (fun e =>
    match e with
    | .s3upload k => some k
    | _ => none)

inductive MainOutcome
  | errorShown
  | success
  | failureReported
  deriving DecidableEq, Repr

structure MainResult where
  outcome : MainOutcome
  s3 : S3State
  trace : List Eff
  publisherCalled : Bool
  deriving DecidableEq, Repr

/-- `main` (src/admin/admin.py lines 99-153): writes the uploaded bytes to
`request_id ++ ".pdf"` in the working directory, loads the pages, chunks them
with chunk size 1000 and overlap 200, displays `splitted_docs[0]` and
`splitted_docs[1]` — which raises `IndexError` when fewer than two fragments
exist, caught by the outer handler that shows an error — and otherwise calls
`create_vector_store`, reporting success or failure from its boolean result.
The commented-out cleanup means the saved PDF is never deleted. -/
def main_run (request_id : String) (pages : List Page) (benv : BedrockEnv)
    (senv : StoreEnv) (s3 : S3State) : MainResult :=
  let t0 : List Eff := [.localWrite (request_id ++ ".pdf")]
  match split_text pages 1000 200 with
  | .error _ => ⟨.errorShown, s3, t0, false⟩
  | .ok docs =>
    if docs.length < 2 then
      ⟨.errorShown, s3, t0, false⟩
    else
      let c := create_vector_store (bedrock_embeddings benv) senv request_id docs s3
      ⟨if c.result then .success else .failureReported, c.s3, t0 ++ c.trace, true⟩

/-! ## Helper lemmas -/

/-- Every block the budgeted hard split emits is at most `max cs 1`
characters long. -/
theorem chunksOfF_mem_length (cs : Nat) (fuel : Nat) :
    ∀ (l : List Char), ∀ q ∈ chunksOfF cs fuel l, q.length ≤ max cs 1 := by
  induction fuel with
  | zero =>
    intro l q hq
    cases l <;> simp [chunksOfF] at hq
  | succ fuel ih =>
    intro l q hq
    cases l with
    | nil => simp [chunksOfF] at hq
    | cons c rest =>
      rw [chunksOfF] at hq
      rcases List.mem_cons.mp hq with h | h
      · subst h
        exact List.length_take_le _ _
      · exact ih _ q h

/-- Every block of the hard split is at most `max cs 1` characters long. -/
theorem chunksOf_mem_length (cs : Nat) (l : List Char) :
    ∀ q ∈ chunksOf cs l, q.length ≤ max cs 1 :=
  chunksOfF_mem_length cs l.length l

/-- Every piece of the recursive separator-aware split is at most
`max cs 1` characters long. -/
theorem splitRec_mem_length (cs : Nat) (seps : List (Char → Bool)) :
    ∀ (text : List Char), ∀ q ∈ splitRec cs seps text, q.length ≤ max cs 1 := by
  induction seps with
  | nil =>
    intro text q hq
    rw [splitRec] at hq
    by_cases he : text.isEmpty
    · rw [if_pos he] at hq; simp at hq
    · rw [if_neg he] at hq
      by_cases h : text.length ≤ cs
      · rw [if_pos h] at hq
        rcases List.mem_singleton.mp hq with rfl
        exact le_trans h (le_max_left _ _)
      · rw [if_neg h] at hq
        exact chunksOf_mem_length cs _ q hq
  | cons p rest ih =>
    intro text q hq
    rw [splitRec] at hq
    by_cases he : text.isEmpty
    · rw [if_pos he] at hq; simp at hq
    · rw [if_neg he] at hq
      by_cases h : text.length ≤ cs
      · rw [if_pos h] at hq
        rcases List.mem_singleton.mp hq with rfl
        exact le_trans h (le_max_left _ _)
      · rw [if_neg h] at hq
        rcases List.mem_flatMap.mp hq with ⟨piece, hpiece, hq2⟩
        by_cases hp : piece.length ≤ cs
        · rw [if_pos hp] at hq2
          rcases List.mem_singleton.mp hq2 with rfl
          exact le_trans hp (le_max_left _ _)
        · rw [if_neg hp] at hq2
          exact ih piece q hq2

/-- The window-merging fold keeps every window at `max cs 1` characters or
fewer, provided the accumulator and all pieces respect the bound. -/
theorem mergeAux_mem_length (cs ov : Nat) (pieces : List (List Char)) :
    ∀ (cur : List Char), cur.length ≤ max cs 1 →
    (∀ p ∈ pieces, p.length ≤ max cs 1) →
    ∀ q ∈ mergeAux cs ov cur pieces, q.length ≤ max cs 1 := by
  induction pieces with
  | nil =>
    intro cur hcur hp q hq
    rw [mergeAux] at hq
    by_cases he : cur.isEmpty
    · rw [if_pos he] at hq; simp at hq
    · rw [if_neg he] at hq
      rcases List.mem_singleton.mp hq with rfl
      exact hcur
  | cons piece rest ih =>
    intro cur hcur hp q hq
    rw [mergeAux] at hq
    by_cases hlen : cur.length + piece.length ≤ cs
    · rw [if_pos hlen] at hq
      refine ih (cur ++ piece) ?_ ?_ q hq
      · rw [List.length_append]
        exact le_trans hlen (le_max_left _ _)
      · intro r hr
        exact hp r (List.mem_cons_of_mem _ hr)
    · rw [if_neg hlen] at hq
      simp only [] at hq
      rcases List.mem_append.mp hq with h | h
      · by_cases he : cur.isEmpty
        · rw [if_pos he] at h; simp at h
        · rw [if_neg he] at h
          rcases List.mem_singleton.mp h with rfl
          exact hcur
      · refine ih _ ?_ ?_ q h
        · by_cases hc : (takeRight ov cur).length + piece.length ≤ cs
          · rw [if_pos hc, List.length_append]
            exact le_trans hc (le_max_left _ _)
          · rw [if_neg hc]
            exact hp piece (List.mem_cons_self _ _)
        · intro r hr
          exact hp r (List.mem_cons_of_mem _ hr)

/-- Every chunk of a single page is at most `max cs 1` characters long. -/
theorem splitPage_mem_length (cs ov : Nat) (text : List Char) :
    ∀ q ∈ splitPage cs ov text, q.length ≤ max cs 1 := by
  intro q hq
  exact mergeAux_mem_length cs ov _ [] (by simp)
    (splitRec_mem_length cs sepLevels text) q hq

/-- Reading a key right after putting it yields the stored payload. -/
theorem s3get_put_same (k : String) (v : Payload) (s : S3State) :
    s3get k (s3put k v s) = some v := by
  simp [s3get, s3put, List.lookup]

/-- Putting one key leaves every other key's payload unchanged. -/
theorem s3get_put_other (k k' : String) (v : Payload) (s : S3State) (h : k ≠ k') :
    s3get k (s3put k' v s) = s3get k s := by
  have hb : (k == k') = false := beq_eq_false_iff_ne.mpr h
  simp [s3get, s3put, List.lookup, hb]

/-- Every effect of `create_vector_store` is one of the two staged local
writes or the two fixed-key uploads. -/
theorem cvs_trace_cases (emb : Option EmbedModel) (senv : StoreEnv)
    (r : String) (docs : List Fragment) (s3 : S3State) :
    ∀ e ∈ (create_vector_store emb senv r docs s3).trace,
      e = .localWrite (stagingPath r ".faiss") ∨ e = .localWrite (stagingPath r ".pkl") ∨
      e = .s3upload faissKey ∨ e = .s3upload pklKey := by
  rcases senv with ⟨b, u1, u2⟩
  intro e he
  cases emb <;> cases b <;> cases u1 <;> cases u2 <;>
    simp [create_vector_store] at he <;> tauto

/-! ## Claim theorems -/

/-- C1: for every input page sequence and every configuration with
`chunk_size > overlap_size ≥ 0`, every fragment produced by `split_text`
has length at most `chunk_size`. -/
theorem split_text_fragment_length_le (pages : List Page) (chunk_size overlap_size : Int)
    (frags : List Fragment) (f : Fragment)
    (h0 : 0 ≤ overlap_size) (h1 : overlap_size < chunk_size)
    (heq : split_text pages chunk_size overlap_size = .ok frags)
    (hf : f ∈ frags) : (f.text.length : Int) ≤ chunk_size := by
  have hcs : 0 < chunk_size := lt_of_le_of_lt h0 h1
  have hguard : ¬(overlap_size ≥ chunk_size ∨ chunk_size ≤ 0) := by
    push_neg
    exact ⟨h1, hcs⟩
  rw [split_text, if_neg hguard] at heq
  injection heq with heq
  subst heq
  rcases List.mem_flatMap.mp hf with ⟨pg, hpg, hmem⟩
  rcases List.mem_map.mp hmem with ⟨t, ht, rfl⟩
  have hb := splitPage_mem_length chunk_size.toNat overlap_size.toNat pg.text t ht
  have hmax : max chunk_size.toNat 1 = chunk_size.toNat := by
    omega
  rw [hmax] at hb
  calc ((t.length : Int)) ≤ (chunk_size.toNat : Int) := by exact_mod_cast hb
    _ = chunk_size := Int.toNat_of_nonneg hcs.le

/-- Witness for C1: a concrete page split with chunk size 5 and overlap 1;
the first produced fragment indeed has length at most 5. -/
theorem split_text_fragment_length_le_witness :
    (((Fragment.mk "hello".data 0).text.length : Int)) ≤ 5 :=
  split_text_fragment_length_le [⟨"hello world. bye".data, 0⟩] 5 1
    [⟨"hello".data, 0⟩, ⟨"o ".data, 0⟩, ⟨"world".data, 0⟩, ⟨"d.".data, 0⟩,
     ⟨". bye".data, 0⟩]
    ⟨"hello".data, 0⟩ (by decide) (by decide) (by rfl) (by decide)

/-- C2: the embedder adapter tries Titan first and then Cohere, using the
first that initializes; when both fail the adapter yields `none` and
`create_vector_store` aborts immediately: it returns `false`, the object
store is unchanged and no effect — no index build, no local write, no
upload — takes place. -/
theorem bedrock_embeddings_fallback (benv : BedrockEnv) (senv : StoreEnv)
    (r : String) (docs : List Fragment) (s3 : S3State) :
    (bedrock_embeddings benv = none ↔ benv.titanOk = false ∧ benv.cohereOk = false) ∧
    (benv.titanOk = true → bedrock_embeddings benv = some .titan) ∧
    (benv.titanOk = false → benv.cohereOk = true → bedrock_embeddings benv = some .cohere) ∧
    create_vector_store none senv r docs s3 = ⟨false, s3, []⟩ := by
  rcases benv with ⟨t, c⟩
  cases t <;> cases c <;> simp [bedrock_embeddings, create_vector_store]

/-- Witness for C2: with Titan unavailable and Cohere available the adapter
selects the Cohere model. -/
theorem bedrock_embeddings_fallback_witness :
    bedrock_embeddings ⟨false, true⟩ = some .cohere :=
  (bedrock_embeddings_fallback ⟨false, true⟩ ⟨true, true, true⟩ "r" [] []).2.2.1 rfl rfl

/-- C3: when the second upload fails after the first succeeded, the caller
observes failure (`result = false`, the modelled `PersistenceFailure`), and
an availability check at the publication keys does not report the request's
artifact as fully published. -/
theorem create_vector_store_partial_upload (m : EmbedModel) (r : String)
    (docs : List Fragment) (s3 : S3State)
    (hpkl : s3get pklKey s3 ≠ some ⟨r, .pkl⟩) :
    (create_vector_store (some m) ⟨true, true, false⟩ r docs s3).result = false ∧
    fullyPublished r (create_vector_store (some m) ⟨true, true, false⟩ r docs s3).s3 = false := by
  refine ⟨rfl, ?_⟩
  have hkeys : pklKey ≠ faissKey := by decide
  simp only [create_vector_store, Bool.false_eq_true, if_false, Bool.true_eq_false,
    ite_false, ite_true, fullyPublished]
  rw [s3get_put_other pklKey faissKey _ s3 hkeys]
  simp [hpkl]

/-- Witness for C3: a concrete partial-upload run from an empty store. -/
theorem create_vector_store_partial_upload_witness :
    (create_vector_store (some .titan) ⟨true, true, false⟩ "r1" [] []).result = false ∧
    fullyPublished "r1" (create_vector_store (some .titan) ⟨true, true, false⟩ "r1" [] []).s3 = false :=
  create_vector_store_partial_upload .titan "r1" [] [] (by decide)

/-- C4: the publish step writes to the same fixed keys for every request id:
two successful publications upload under identical key sequences
`[my_faiss.faiss, my_faiss.pkl]`, and the second publication overwrites the
first at both keys. -/
theorem publish_fixed_key (r1 r2 : String) (m1 m2 : EmbedModel)
    (docs1 docs2 : List Fragment) (s3 : S3State) :
    uploadedKeys (create_vector_store (some m1) ⟨true, true, true⟩ r1 docs1 s3).trace =
      uploadedKeys (create_vector_store (some m2) ⟨true, true, true⟩ r2 docs2 s3).trace ∧
    uploadedKeys (create_vector_store (some m1) ⟨true, true, true⟩ r1 docs1 s3).trace =
      [faissKey, pklKey] ∧
    s3get faissKey (create_vector_store (some m2) ⟨true, true, true⟩ r2 docs2
      (create_vector_store (some m1) ⟨true, true, true⟩ r1 docs1 s3).s3).s3 =
      some ⟨r2, .faiss⟩ ∧
    s3get pklKey (create_vector_store (some m2) ⟨true, true, true⟩ r2 docs2
      (create_vector_store (some m1) ⟨true, true, true⟩ r1 docs1 s3).s3).s3 =
      some ⟨r2, .pkl⟩ := by
  have hkeys : faissKey ≠ pklKey := by decide
  refine ⟨rfl, rfl, ?_, ?_⟩
  · simp only [create_vector_store, Bool.true_eq_false, if_false, ite_false]
    rw [s3get_put_other faissKey pklKey _ _ hkeys, s3get_put_same]
  · simp only [create_vector_store, Bool.true_eq_false, if_false, ite_false]
    rw [s3get_put_same]

/-- C5 (code bug): on a zero-page document the chunker does yield zero
fragments, but `main` then evaluates `splitted_docs[0]`, raising an
`IndexError` that the outer handler reports as an error: the run ends with
`errorShown`, the publisher is never called and no artifact is written,
contrary to the spec's legitimate empty-index outcome. -/
theorem main_run_zero_pages (r : String) (benv : BedrockEnv) (senv : StoreEnv)
    (s3 : S3State) :
    split_text ([] : List Page) 1000 200 = .ok [] ∧
    main_run r [] benv senv s3 = ⟨.errorShown, s3, [.localWrite (r ++ ".pdf")], false⟩ := by
  constructor
  · rfl
  · rfl

/-- C6: `split_text` fails with `InvalidChunkConfig` whenever
`overlap_size ≥ chunk_size` or `chunk_size ≤ 0`, producing no fragments. -/
theorem split_text_invalid_config (pages : List Page) (chunk_size overlap_size : Int)
    (h : overlap_size ≥ chunk_size ∨ chunk_size ≤ 0) :
    split_text pages chunk_size overlap_size = .error .InvalidChunkConfig := by
  rw [split_text, if_pos h]

/-- Witness for C6: overlap equal to the chunk size is rejected. -/
theorem split_text_invalid_config_witness :
    split_text [] 5 5 = .error .InvalidChunkConfig :=
  split_text_invalid_config [] 5 5 (Or.inl (by decide))

/-- C7: `split_text` is deterministic — identical pages, chunk size and
overlap always produce the identical fragment sequence. -/
theorem split_text_deterministic (p1 p2 : List Page) (c1 c2 o1 o2 : Int)
    (hp : p1 = p2) (hc : c1 = c2) (ho : o1 = o2) :
    split_text p1 c1 o1 = split_text p2 c2 o2 := by
  subst hp; subst hc; subst ho; rfl

/-- Witness for C7: two runs of the splitter on the same concrete input
agree. -/
theorem split_text_deterministic_witness :
    split_text [⟨"ab".data, 0⟩] 1000 200 = split_text [⟨"ab".data, 0⟩] 1000 200 :=
  split_text_deterministic _ _ 1000 1000 200 200 rfl rfl rfl

/-- C8: the publisher first serializes the index into the `/tmp/` staging
area under file names keyed by the request id — so distinct requests get
distinct staging paths — and only then uploads the two payloads: the full
effect trace is the two local writes followed by the two uploads. -/
theorem staging_keyed_then_upload (r1 r2 : String) (m : EmbedModel)
    (docs : List Fragment) (s3 : S3State) :
    (create_vector_store (some m) ⟨true, true, true⟩ r1 docs s3).trace =
      [.localWrite (stagingPath r1 ".faiss"), .localWrite (stagingPath r1 ".pkl"),
       .s3upload faissKey, .s3upload pklKey] ∧
    (r1 ≠ r2 → stagingPath r1 ".faiss" ≠ stagingPath r2 ".faiss") := by
  constructor
  · rfl
  · intro hne heq
    apply hne
    have hd := congrArg String.data heq
    simp only [stagingPath, folder_path, file_name, String.data_append] at hd
    have h1 := List.append_cancel_right hd
    have h2 := List.append_cancel_left h1
    have h3 := List.append_cancel_right h2
    exact String.ext h3

/-- Witness for C8: two distinct request ids get distinct staging paths. -/
theorem staging_keyed_then_upload_witness :
    stagingPath "a" ".faiss" ≠ stagingPath "b" ".faiss" :=
  (staging_keyed_then_upload "a" "b" .titan [] []).2 (by decide)

/-- C9: `create_vector_store` always returns a boolean — `true` exactly when
an embedding model is available, the index build succeeds and both uploads
succeed — and, being a total function into `CVSResult`, never propagates an
exception to its caller. -/
theorem create_vector_store_result_iff (emb : Option EmbedModel) (senv : StoreEnv)
    (r : String) (docs : List Fragment) (s3 : S3State) :
    (create_vector_store emb senv r docs s3).result = true ↔
      (emb.isSome = true ∧ senv.buildOk = true ∧ senv.upload1Ok = true ∧
       senv.upload2Ok = true) := by
  rcases senv with ⟨b, u1, u2⟩
  cases emb <;> cases b <;> cases u1 <;> cases u2 <;> simp [create_vector_store]

/-- Witness for C9: a fully successful concrete run returns `true`. -/
theorem create_vector_store_result_iff_witness :
    (create_vector_store (some .titan) ⟨true, true, true⟩ "r1" [] []).result = true :=
  (create_vector_store_result_iff (some .titan) ⟨true, true, true⟩ "r1" [] []).mpr
    (by decide)

/-- C10: every run of `main_run` writes the residual `request_id ++ ".pdf"`
file in the working directory, never emits a delete, and every other file it
creates lives under the `/tmp/` staging area. -/
theorem main_run_residual_files (r : String) (pages : List Page)
    (benv : BedrockEnv) (senv : StoreEnv) (s3 : S3State) :
    Eff.localWrite (r ++ ".pdf") ∈ (main_run r pages benv senv s3).trace ∧
    (∀ p, Eff.fsDelete p ∉ (main_run r pages benv senv s3).trace) ∧
    (∀ p, Eff.localWrite p ∈ (main_run r pages benv senv s3).trace →
      p = r ++ ".pdf" ∨ p = stagingPath r ".faiss" ∨ p = stagingPath r ".pkl") := by
  have hsplit : split_text pages 1000 200 =
      .ok (pages.flatMap (fun pg =>
        (splitPage (1000 : Int).toNat (200 : Int).toNat pg.text).map
          (fun t => ⟨t, pg.page_index⟩))) := by
    rw [split_text, if_neg (by decide)]
  by_cases hlen : (pages.flatMap (fun pg =>
      (splitPage (1000 : Int).toNat (200 : Int).toNat pg.text).map
        (fun t => (⟨t, pg.page_index⟩ : Fragment)))).length < 2
  · simp only [main_run, hsplit, if_pos hlen]
    refine ⟨by simp, by simp, ?_⟩
    intro p hp
    simp at hp
    exact Or.inl hp
  · simp only [main_run, hsplit, if_neg hlen]
    refine ⟨by simp, ?_, ?_⟩
    · intro p hp
      rcases List.mem_append.mp hp with h | h
      · simp at h
      · rcases cvs_trace_cases _ _ _ _ _ _ h with h2 | h2 | h2 | h2 <;> simp at h2
    · intro p hp
      rcases List.mem_append.mp hp with h | h
      · simp at h
        exact Or.inl h
      · rcases cvs_trace_cases _ _ _ _ _ _ h with h2 | h2 | h2 | h2 <;>
          first
          | (injection h2 with h3; exact Or.inr (Or.inl h3))
          | (injection h2 with h3; exact Or.inr (Or.inr h3))
          | (exact absurd h2 (by simp))

/-- Witness for C10: on a concrete zero-page run the only local write is the
residual PDF file in the working directory. -/
theorem main_run_residual_files_witness :
    "r1" ++ ".pdf" = "r1" ++ ".pdf" ∨ "r1" ++ ".pdf" = stagingPath "r1" ".faiss" ∨
    "r1" ++ ".pdf" = stagingPath "r1" ".pkl" :=
  (main_run_residual_files "r1" [] ⟨true, true⟩ ⟨true, true, true⟩ []).2.2
    ("r1" ++ ".pdf") (by decide)
